import Mathlib

/-!
Verification of the inverse-geometry notebook (`1_invgeom.ipynb`).

The notebook formulates an inverse-geometry task for the UR5 manipulator
(`nq = 6`): minimize the pose error between the tool frame and a fixed
target pose.  Two evaluation paths are set up for the same formula:

* Path A (numeric): `error(q) = norm(pin.log(M_tool(q)^-1 * M_target).vector)`
  evaluated through pinocchio forward kinematics into the shared cache `data`
  and fed to `scipy.optimize.fmin_bfgs`;
* Path B (symbolic): `error_tool(q) = cpin.log6(M_tool(q)^-1 * M_target).vector`
  built as a CasADi graph over `cmodel = cpin.Model(model)`, with objective
  `totalcost = casadi.sumsqr(error_tool(var_q))` solved by IPOPT inside a
  `try ... except` fallback.

The embedding below models:
* `SE3` concretely, with the composition and inverse formulas the pinocchio
  library uses (`(R1, p1) * (R2, p2) = (R1 R2, R1 p2 + p1)`;
  `(R, p)^-1 = (R^T, -R^T p)`);
* the SE(3) logarithmic map and the robot's forward kinematics abstractly,
  as parameters, since they are opaque external-library collaborators; the
  properties the notebook relies on (the log map vanishes exactly at the
  identity, forward kinematics yields rigid placements) appear as explicit
  hypotheses where a claim needs them;
* the stateful parts (the forward-kinematics cache `data`, the MeshCat
  viewer, the visualization callback) by explicit state passing on a
  record of the notebook's mutable state.
-/

namespace InvGeom

/-- 3x3 real matrices, modelling rotation blocks of pinocchio placements. -/
abbrev Mat3 := Matrix (Fin 3) (Fin 3) ℝ

/-- 3-dimensional real vectors (translations). -/
abbrev Vec3 := Fin 3 → ℝ

/-- 6-dimensional real vectors (twists, the value of `log6(...).vector`). -/
abbrev Vec6 := Fin 6 → ℝ

/-- Configuration vectors: the UR5 model has `nq = 6`. -/
abbrev Config := Fin 6 → ℝ

/-- A placement (affine transform), as pinocchio's `SE3` stores it:
a rotation block and a translation vector. -/
@[ext]
structure SE3 where
  rot : Mat3
  trans : Vec3

/-- Composition of placements, as pinocchio implements `M1 * M2`:
rotation `R1 * R2`, translation `R1 * p2 + p1`. -/
def SE3.mul (A B : SE3) : SE3 :=
  ⟨A.rot * B.rot, A.rot.mulVec B.trans + A.trans⟩

/-- Pinocchio's `SE3.inverse()`: `(R, p)^-1 = (R^T, -R^T p)`. -/
def SE3.inverse (A : SE3) : SE3 :=
  ⟨A.rot.transpose, -(A.rot.transpose.mulVec A.trans)⟩

/-- The identity placement. -/
def SE3.one : SE3 := ⟨1, 0⟩

/-- A placement is rigid when its rotation block is orthogonal; forward
kinematics of a robot model only produces such placements. -/
def SE3.IsRigid (A : SE3) : Prop :=
  A.rot.transpose * A.rot = 1 ∧ A.rot * A.rot.transpose = 1

/-- Euclidean norm of a 6-vector, as `numpy.linalg.norm` computes it on
the value of `pin.log(...).vector`. -/
noncomputable def norm6 (v : Vec6) : ℝ :=
  Real.sqrt (∑ i, v i ^ 2)

/-- Path A error function, from the notebook cell

```python
def error(q):
    pin.framesForwardKinematics(model, data, q)
    transform_tool_to_world = data.oMf[tool_id]
    return norm(pin.log(transform_tool_to_world.inverse()
                        * transform_target_to_world).vector)
```

`log6` stands for the library's SE(3) logarithmic map `pin.log(...).vector`
and `fk q` for the tool-frame placement `data.oMf[tool_id]` that forward
kinematics writes for configuration `q`. -/
noncomputable def error (log6 : SE3 → Vec6) (fk : Config → SE3) (target : SE3)
    (q : Config) : ℝ :=
  norm6 (log6 ((fk q).inverse.mul target))

/-- Path B residual, from the notebook cell

```python
error_tool = casadi.Function("etool", [cq],
    [cpin.log6(cdata.oMf[tool_id].inverse()
               * cpin.SE3(transform_target_to_world)).vector])
```

`clog6` stands for `cpin.log6(...).vector` and `cfk q` for the CasADi-side
tool placement `cdata.oMf[tool_id]` as a function of the symbol `cq`;
`cpin.SE3(transform_target_to_world)` is the identity conversion of the
target placement into the graph. -/
def error_tool (clog6 : SE3 → Vec6) (cfk : Config → SE3) (target : SE3)
    (q : Config) : Vec6 :=
  clog6 ((cfk q).inverse.mul target)

/-- Path B objective, `totalcost = casadi.sumsqr(error_tool(var_q))`:
the sum of the squares of the six residual components. -/
def totalcost (clog6 : SE3 → Vec6) (cfk : Config → SE3) (target : SE3)
    (q : Config) : ℝ :=
  ∑ i, error_tool clog6 cfk target q i ^ 2

/-- The notebook's `try/except` around the IPOPT call:

```python
try:
    sol = opti.solve_limited()
    sol_q = opti.value(var_q)
except:
    print("ERROR in convergence, plotting debug info.")
    sol_q = opti.debug.value(var_q)
```

The solver call is modelled as an `Except` value over an arbitrary
exception type `ε` (the handler is a bare `except:`), `value` as reading
`opti.value(var_q)` from a successful solution, and `debugValue` as
`opti.debug.value(var_q)`.  The result pairs `sol_q` with the list of
printed diagnostics. -/
def solveWithFallback {ε σ : Type} (solve_limited : Except ε σ)
    (value : σ → Config) (debugValue : Config) : Config × List String :=
  match solve_limited with
  | Except.ok sol => (value sol, [])
  | Except.error _ => (debugValue, ["ERROR in convergence, plotting debug info."])

/-- The pinocchio cache object `data`: the notebook only reads its frame
placement table `oMf` (indexed by frame id). -/
structure Data where
  oMf : ℕ → SE3

/-- The library call `pin.framesForwardKinematics(model, data, q)`: it
overwrites the whole frame-placement table of the cache from the fixed
model and the configuration `q` alone.  `fkModel q fid` stands for the
placement of frame `fid` that the fixed model assigns at configuration
`q`; the previous cache contents do not enter. -/
def framesForwardKinematics (fkModel : Config → ℕ → SE3) (_d : Data)
    (q : Config) : Data :=
  ⟨fkModel q⟩

/-- Stateful view of the Path A error function: the call first updates
the shared cache, then reads the tool placement from it.  Returns the
scalar together with the cache state it leaves behind. -/
noncomputable def errorSt (fkModel : Config → ℕ → SE3) (log6 : SE3 → Vec6)
    (tool_id : ℕ) (target : SE3) (d : Data) (q : Config) : ℝ × Data :=
  let d' := framesForwardKinematics fkModel d q
  let transform_tool_to_world := d'.oMf tool_id
  (norm6 (log6 (transform_tool_to_world.inverse.mul target)), d')

/-- The notebook state mutated during an optimization run: the target
placement and tool frame id set up once, the shared kinematic cache, and
the MeshCat viewer (its `target` and `current` frame transforms and the
last displayed configuration). -/
structure ProgState where
  transform_target_to_world : SE3
  tool_id : ℕ
  data : Data
  viewer_target : SE3
  viewer_current : SE3
  displayed : Config

/-- The visualization callback, from the notebook cell

```python
def callback(q):
    pin.framesForwardKinematics(model, data, q)
    transform_frame_to_world = data.oMf[tool_id]
    viewer["target"].set_transform(transform_target_to_world.np)
    viewer["current"].set_transform(transform_frame_to_world.np)
    viz.display(q)
    time.sleep(1e-1)
```

Explicit state passing: the callback receives the candidate `q` (a
mutable array in the source, so it is also returned) and the program
state, and returns both.  `time.sleep` has no modelled effect. -/
def callback (fkModel : Config → ℕ → SE3) (s : ProgState) (q : Config) :
    Config × ProgState :=
  let d' := framesForwardKinematics fkModel s.data q
  let transform_frame_to_world := d'.oMf s.tool_id
  (q, { s with
          data := d'
          viewer_target := s.transform_target_to_world
          viewer_current := transform_frame_to_world
          displayed := q })

/-- One observable operation of an optimization run: either the optimizer
evaluates the error function at a trial configuration, or it invokes the
per-iteration callback on the current candidate. -/
inductive Op where
  | evalError : Config → Op
  | runCallback : Config → Op

/-- Effect of one operation on the notebook state. -/
noncomputable def applyOp (fkModel : Config → ℕ → SE3) (log6 : SE3 → Vec6)
    (s : ProgState) : Op → ProgState
  | Op.evalError q =>
      { s with data := (errorSt fkModel log6 s.tool_id
          s.transform_target_to_world s.data q).2 }
  | Op.runCallback q => (callback fkModel s q).2

/-- An optimization run, seen as any interleaving of error evaluations
and callback invocations starting from the post-setup state. -/
noncomputable def runOps (fkModel : Config → ℕ → SE3) (log6 : SE3 → Vec6) :
    ProgState → List Op → ProgState
  | s, [] => s
  | s, op :: rest => runOps fkModel log6 (applyOp fkModel log6 s op) rest

/-! ### Helper lemmas -/

/-- A finite sum of real squares vanishes exactly when every term does. -/
theorem sum_sq_eq_zero_iff {n : ℕ} (f : Fin n → ℝ) :
    ∑ i, f i ^ 2 = 0 ↔ ∀ i, f i = 0 := by
  rw [Finset.sum_eq_zero_iff_of_nonneg (fun i _ => sq_nonneg (f i))]
  constructor
  · intro h i
    exact sq_eq_zero_iff.mp (h i (Finset.mem_univ i))
  · intro h i _
    simp [h i]

/-- `norm6` is the genuine Euclidean norm on 6-vectors. -/
theorem norm6_eq_norm (v : Vec6) :
    norm6 v = ‖(WithLp.equiv 2 (Fin 6 → ℝ)).symm v‖ := by
  rw [EuclideanSpace.norm_eq]
  unfold norm6
  congr 1
  refine Finset.sum_congr rfl fun i _ => ?_
  rw [WithLp.equiv_symm_pi_apply, Real.norm_eq_abs, sq_abs]

/-- `norm6` vanishes exactly on the zero 6-vector. -/
theorem norm6_eq_zero_iff (v : Vec6) : norm6 v = 0 ↔ v = 0 := by
  unfold norm6
  rw [Real.sqrt_eq_zero (Finset.sum_nonneg fun i _ => sq_nonneg (v i)),
    sum_sq_eq_zero_iff]
  exact ⟨fun h => funext h, fun h i => congrFun h i⟩

/-- The identity placement is rigid. -/
theorem SE3.one_isRigid : SE3.one.IsRigid := by
  constructor <;> simp [SE3.one]

/-- Cancellation in the pinocchio placement algebra: for a rigid `A`,
the relative placement `A⁻¹ * B` is the identity exactly when `B = A`. -/
theorem SE3.inv_mul_eq_one_iff (A B : SE3) (hA : A.IsRigid) :
    A.inverse.mul B = SE3.one ↔ B = A := by
  obtain ⟨hl, hr⟩ := hA
  constructor
  · intro h
    have hrot : A.rot.transpose * B.rot = 1 := congrArg SE3.rot h
    have htr : A.rot.transpose.mulVec B.trans
        + -(A.rot.transpose.mulVec A.trans) = 0 := congrArg SE3.trans h
    have hBrot : B.rot = A.rot := by
      have h2 := congrArg (fun M => A.rot * M) hrot
      simpa [← Matrix.mul_assoc, hr] using h2
    have hBtr : B.trans = A.trans := by
      have h2 : A.rot.transpose.mulVec B.trans
          = A.rot.transpose.mulVec A.trans := by rwa [add_neg_eq_zero] at htr
      have h3 := congrArg (fun v => A.rot.mulVec v) h2
      simpa [Matrix.mulVec_mulVec, hr] using h3
    exact SE3.ext hBrot hBtr
  · rintro rfl
    refine SE3.ext ?_ ?_
    · simpa [SE3.mul, SE3.inverse, SE3.one] using hl
    · simp [SE3.mul, SE3.inverse, SE3.one]

/-- The stateful and the pure views of the Path A error function agree:
the scalar returned by `errorSt` is `error` applied to the tool-frame
forward-kinematics function. -/
theorem errorSt_fst_eq_error (fkModel : Config → ℕ → SE3) (log6 : SE3 → Vec6)
    (tool_id : ℕ) (target : SE3) (d : Data) (q : Config) :
    (errorSt fkModel log6 tool_id target d q).1
      = error log6 (fun p => fkModel p tool_id) target q := rfl

/-- A concrete stand-in for the library's SE(3) log map, used to witness
hypotheses about it: components 0-2 hold the squared norm of the
translation and components 3-5 the squared Frobenius distance of the
rotation block from the identity, so it vanishes exactly at the identity
placement. -/
def toyLog (M : SE3) : Vec6 := fun i =>
  if (i : ℕ) < 3 then ∑ j : Fin 3, M.trans j ^ 2
  else ∑ a : Fin 3, ∑ b : Fin 3, (M.rot a b - (1 : Mat3) a b) ^ 2

/-- `toyLog` has the characteristic property of the SE(3) log map that
claim C3 needs: it vanishes exactly at the identity placement. -/
theorem toyLog_eq_zero_iff (M : SE3) : toyLog M = 0 ↔ M = SE3.one := by
  have e0 : toyLog M 0 = ∑ j : Fin 3, M.trans j ^ 2 := if_pos (by decide)
  have e3 : toyLog M 3
      = ∑ a : Fin 3, ∑ b : Fin 3, (M.rot a b - (1 : Mat3) a b) ^ 2 :=
    if_neg (by decide)
  constructor
  · intro h
    have h0 : ∑ j : Fin 3, M.trans j ^ 2 = 0 := by
      rw [← e0]; exact congrFun h 0
    have h3 : ∑ a : Fin 3, ∑ b : Fin 3, (M.rot a b - (1 : Mat3) a b) ^ 2 = 0 := by
      rw [← e3]; exact congrFun h 3
    refine SE3.ext ?_ ?_
    · show M.rot = (1 : Mat3)
      refine Matrix.ext fun a b => sub_eq_zero.mp ?_
      have houter := (Finset.sum_eq_zero_iff_of_nonneg
        (fun a _ => Finset.sum_nonneg fun b _ => sq_nonneg _)).mp h3 a
        (Finset.mem_univ a)
      exact (sum_sq_eq_zero_iff fun b => M.rot a b - (1 : Mat3) a b).mp houter b
    · show M.trans = (0 : Vec3)
      exact funext ((sum_sq_eq_zero_iff M.trans).mp h0)
  · rintro rfl
    funext i
    show (if (i : ℕ) < 3 then _ else _) = _
    split <;> simp [SE3.one]

/-! ### Claim theorems -/

/-- Claim C1: for every configuration `q`, the numeric `error` and the
symbolic residual `error_tool` agree pointwise: the scalar `error q`
differs from the Euclidean norm of the 6-vector `error_tool q` by less
than `1e-9` (they compute the identical formula over two evaluation
backends; the hypotheses state that the CasADi backend reproduces the
same log map and the same forward kinematics, which the notebook ensures
by building `cmodel` from `model`). -/
theorem numeric_symbolic_agree (log6 clog6 : SE3 → Vec6)
    (fk cfk : Config → SE3) (target : SE3)
    (hlog : ∀ M, clog6 M = log6 M) (hfk : ∀ p, cfk p = fk p) (q : Config) :
    |error log6 fk target q - norm6 (error_tool clog6 cfk target q)| < 1e-9 := by
  unfold error error_tool
  rw [hfk, hlog, sub_self, abs_zero]
  norm_num

/-- Witness for C1: concrete backends (the zero log map, constant
identity forward kinematics, identity target, zero configuration). -/
theorem numeric_symbolic_agree_witness :
    |error (fun _ => 0) (fun _ => SE3.one) SE3.one (fun _ => 0)
      - norm6 (error_tool (fun _ => 0) (fun _ => SE3.one) SE3.one
          (fun _ => 0))| < 1e-9 :=
  numeric_symbolic_agree (fun _ => 0) (fun _ => 0) (fun _ => SE3.one)
    (fun _ => SE3.one) SE3.one (fun _ => rfl) (fun _ => rfl) (fun _ => 0)

/-- Claim C2: for every configuration `q`, the numeric error function
returns `|| log( inverse(M_tool(q)) * M_target ) ||`, where `M_tool(q)`
is the tool-frame placement that forward kinematics writes into the
cache, and the norm is the genuine Euclidean norm of the 6-vector. -/
theorem error_log_formula (fkModel : Config → ℕ → SE3) (log6 : SE3 → Vec6)
    (tool_id : ℕ) (target : SE3) (d : Data) (q : Config) :
    (errorSt fkModel log6 tool_id target d q).1
      = ‖(WithLp.equiv 2 (Fin 6 → ℝ)).symm (log6 (SE3.mul (SE3.inverse
          ((framesForwardKinematics fkModel d q).oMf tool_id)) target))‖ :=
  norm6_eq_norm _

/-- Claim C3: `error q` is non-negative, and it is zero exactly when the
tool placement `fk q` equals the target as an SE(3) group element.  The
hypotheses record the library facts the claim rests on: the SE(3) log
map vanishes exactly at the identity, and forward kinematics produces
rigid placements. -/
theorem error_nonneg_and_zero_iff (log6 : SE3 → Vec6) (fk : Config → SE3)
    (target : SE3) (hlog : ∀ M, log6 M = 0 ↔ M = SE3.one)
    (hfk : ∀ p, (fk p).IsRigid) (q : Config) :
    0 ≤ error log6 fk target q
      ∧ (error log6 fk target q = 0 ↔ fk q = target) := by
  constructor
  · exact Real.sqrt_nonneg _
  · unfold error
    rw [norm6_eq_zero_iff, hlog, SE3.inv_mul_eq_one_iff _ _ (hfk q)]
    exact eq_comm

/-- Witness for C3: the concrete log map `toyLog` (which vanishes exactly
at the identity) with constant identity forward kinematics and identity
target, at the zero configuration. -/
theorem error_nonneg_and_zero_iff_witness :
    0 ≤ error toyLog (fun _ => SE3.one) SE3.one (fun _ => 0)
      ∧ (error toyLog (fun _ => SE3.one) SE3.one (fun _ => 0) = 0
          ↔ (fun _ : Config => SE3.one) (fun _ => 0) = SE3.one) :=
  error_nonneg_and_zero_iff toyLog (fun _ => SE3.one) SE3.one
    toyLog_eq_zero_iff (fun _ => SE3.one_isRigid) (fun _ => 0)

/-- Claim C4: the IPOPT cell catches any raised failure rather than
propagating it, prints the diagnostic, and takes `sol_q` from the debug
trace; on success `sol_q` is the solver value.  The exception type `ε`
is arbitrary: the handler is a bare catch-all, intercepting every
exception, not only solver non-convergence. -/
theorem solve_catchall_fallback {ε σ : Type} (e : ε) (sol : σ)
    (value : σ → Config) (debugValue : Config) :
    solveWithFallback (Except.error e) value debugValue
        = (debugValue, ["ERROR in convergence, plotting debug info."])
      ∧ solveWithFallback (Except.ok sol : Except ε σ) value debugValue
        = (value sol, []) :=
  ⟨rfl, rfl⟩

/-- Claim C7: the error function evaluated at `q` does not depend on the
state the shared cache `data` is in when the call starts (in particular
not on states left by callback invocations at other configurations), and
evaluating twice at the same `q` yields identical results: the call
recomputes forward kinematics into the cache before reading it. -/
theorem error_cache_independent (fkModel : Config → ℕ → SE3)
    (log6 : SE3 → Vec6) (tool_id : ℕ) (target : SE3) (d d₂ : Data)
    (q : Config) :
    (errorSt fkModel log6 tool_id target d q).1
        = (errorSt fkModel log6 tool_id target d₂ q).1
      ∧ (errorSt fkModel log6 tool_id target
          (errorSt fkModel log6 tool_id target d q).2 q).1
        = (errorSt fkModel log6 tool_id target d q).1 :=
  ⟨rfl, rfl⟩

/-- Claim C8: through any interleaving of error evaluations and callback
invocations (which is all an optimization run performs on the notebook
state), the target placement and the tool frame id are never written
after setup; and the callback returns its candidate configuration
unchanged, never mutating the optimization state. -/
theorem target_and_tool_id_readonly (fkModel : Config → ℕ → SE3)
    (log6 : SE3 → Vec6) :
    (∀ (s : ProgState) (ops : List Op),
        (runOps fkModel log6 s ops).transform_target_to_world
            = s.transform_target_to_world
          ∧ (runOps fkModel log6 s ops).tool_id = s.tool_id)
      ∧ ∀ (s : ProgState) (q : Config), (callback fkModel s q).1 = q := by
  constructor
  · intro s ops
    induction ops generalizing s with
    | nil => exact ⟨rfl, rfl⟩
    | cons op rest ih =>
      have hstep : (applyOp fkModel log6 s op).transform_target_to_world
            = s.transform_target_to_world
          ∧ (applyOp fkModel log6 s op).tool_id = s.tool_id := by
        cases op <;> exact ⟨rfl, rfl⟩
      have hrest := ih (applyOp fkModel log6 s op)
      exact ⟨hrest.1.trans hstep.1, hrest.2.trans hstep.2⟩
  · intro s q
    rfl

/-- Claim C9: the numeric error function is total on real configuration
vectors of length `nq = 6`: for every `q` (and every incoming cache
state) it returns a real scalar, with no validation or failure branch;
the scalar is the norm of the log of the relative placement. -/
theorem error_total_on_configs (fkModel : Config → ℕ → SE3)
    (log6 : SE3 → Vec6) (tool_id : ℕ) (target : SE3) :
    ∀ (q : Fin 6 → ℝ) (d : Data), ∃ r : ℝ,
      (errorSt fkModel log6 tool_id target d q).1 = r
        ∧ r = norm6 (log6 ((fkModel q tool_id).inverse.mul target)) :=
  fun _ _ => ⟨_, rfl, rfl⟩

/-- Claim C10: the visualization callback is not side-effect-free on the
shared state: it overwrites the forward-kinematics cache so that `oMf`
afterwards reflects the callback's `q` (whatever the cache held before),
and it updates the viewer (target frame, current frame, displayed
configuration), while leaving its argument `q`, the target placement and
the tool frame id unchanged. -/
theorem callback_effects (fkModel : Config → ℕ → SE3) (s : ProgState)
    (q : Config) :
    ((callback fkModel s q).2).data.oMf = fkModel q
      ∧ ((callback fkModel s q).2).viewer_target
          = s.transform_target_to_world
      ∧ ((callback fkModel s q).2).viewer_current = fkModel q s.tool_id
      ∧ ((callback fkModel s q).2).displayed = q
      ∧ (callback fkModel s q).1 = q
      ∧ ((callback fkModel s q).2).transform_target_to_world
          = s.transform_target_to_world
      ∧ ((callback fkModel s q).2).tool_id = s.tool_id :=
  ⟨rfl, rfl, rfl, rfl, rfl, rfl, rfl⟩

/-- Claim C5: the Path B objective equals the sum of squares of the six
residual components, hence equals the square of the Path A scalar error,
and the two objectives vanish at exactly the same configurations (under
the same backend-agreement hypotheses as C1). -/
theorem totalcost_eq_error_sq (log6 clog6 : SE3 → Vec6)
    (fk cfk : Config → SE3) (target : SE3)
    (hlog : ∀ M, clog6 M = log6 M) (hfk : ∀ p, cfk p = fk p) (q : Config) :
    totalcost clog6 cfk target q
        = ∑ i, error_tool clog6 cfk target q i ^ 2
      ∧ totalcost clog6 cfk target q = error log6 fk target q ^ 2
      ∧ (totalcost clog6 cfk target q = 0
          ↔ error log6 fk target q = 0) := by
  have hsum : totalcost clog6 cfk target q
      = ∑ i, log6 ((fk q).inverse.mul target) i ^ 2 := by
    unfold totalcost error_tool
    rw [hfk, hlog]
  have hsq : error log6 fk target q ^ 2
      = ∑ i, log6 ((fk q).inverse.mul target) i ^ 2 := by
    unfold error norm6
    rw [Real.sq_sqrt (Finset.sum_nonneg fun i _ => sq_nonneg _)]
  refine ⟨rfl, by rw [hsum, hsq], ?_⟩
  rw [hsum, ← hsq]
  exact sq_eq_zero_iff

/-- Witness for C5: same concrete backends as the C1 witness. -/
theorem totalcost_eq_error_sq_witness :
    totalcost (fun _ => 0) (fun _ => SE3.one) SE3.one (fun _ => 0)
        = ∑ i, error_tool (fun _ => 0) (fun _ => SE3.one) SE3.one
            (fun _ => 0) i ^ 2
      ∧ totalcost (fun _ => 0) (fun _ => SE3.one) SE3.one (fun _ => 0)
        = error (fun _ => 0) (fun _ => SE3.one) SE3.one (fun _ => 0) ^ 2
      ∧ (totalcost (fun _ => 0) (fun _ => SE3.one) SE3.one (fun _ => 0) = 0
          ↔ error (fun _ => 0) (fun _ => SE3.one) SE3.one
              (fun _ => 0) = 0) :=
  totalcost_eq_error_sq (fun _ => 0) (fun _ => 0) (fun _ => SE3.one)
    (fun _ => SE3.one) SE3.one (fun _ => rfl) (fun _ => rfl) (fun _ => 0)

end InvGeom
